import Mathlib

/-!
Verification of the DQN family in `mushroom/algorithms/value/dqn.py`
(classes `DQN`, `DoubleDQN`, `AveragedDQN`, `WeightedDQN`).

Shallow embedding conventions:
* Q-values are rationals; a per-state prediction of the approximator is a
  row `q : ℕ → ℚ` read on the action indices `0 .. nA - 1`, where `nA` is
  `mdp_info['action_space'].n` (numpy rows of width `nA`; reductions such
  as `np.max`, `np.argmax`, `np.mean`, `np.dot` only ever touch the first
  `nA` entries).
* Batches are lists; `next_state` / `absorbing` arrive as two aligned
  lists, as in the numpy code.
* The approximators are opaque weight values `Θ` with a prediction
  function `Θ → S → ℕ → ℚ` passed as a parameter; an ensemble target is a
  `List Θ` of slots (`target_approximator.model[i]`).
* External collaborators living outside the translated file
  (`ReplayMemory`, `Buffer`, the policy, the `Agent` base class,
  `np.random.randint`) are modelled from their specified contracts and
  passed as parameters where possible.
* Ghost fields (`fit_log`, `sync_history`, `sync_slots`) record the
  observable calls `approximator.fit(...)` / `set_weights(...)` so that
  "the train approximator was fitted" and "slot `idx` was overwritten at
  this sync" become statements about the state; they influence nothing.
-/

/-- `np.clip(r, -1, 1)` on a scalar. -/
def npClip1 (r : ℚ) : ℚ := min (max r (-1)) 1

/-- Maximum of a list of rationals (`np.max` along an axis); `0` on the
empty list, which numpy rejects — every use below has a non-empty row. -/
def listMax : List ℚ → ℚ
  | [] => 0
  | x :: xs => xs.foldl max x

/-- `np.argmax` on a list: index of the first occurrence of the maximum. -/
def argmaxList (l : List ℚ) : ℕ :=
  (List.range l.length).foldl
    (fun best i => if l.getD i 0 > l.getD best 0 then i else best) 0

/-- Maximum over the `nA` actions of a Q-row (`np.max(q, axis=1)` per
row). -/
def rowMax (nA : ℕ) (q : ℕ → ℚ) : ℚ :=
  listMax ((List.range nA).map q)

/-- First argmax over the `nA` actions of a Q-row
(`np.argmax(q, axis=1)` per row). -/
def rowArgmax (nA : ℕ) (q : ℕ → ℚ) : ℕ :=
  argmaxList ((List.range nA).map q)

/-- An absorbing flag as the numeral numpy multiplies with. -/
def boolToQ (b : Bool) : ℚ := if b then 1 else 0

/-- `q *= 1 - absorbing` on one row: the absorbing mask of `_next_q`.
(The code guards this with `np.any(absorbing)`, which only skips a
multiplication by `1`.) -/
def maskRow (b : Bool) (q : ℕ → ℚ) : ℕ → ℚ :=
  fun a => (1 - boolToQ b) * q a

/-- Per-action mean of the first `nFitted` slot predictions
(`np.mean(q, axis=0)` over the fitted slots); `pred i` is slot `i`'s
row. -/
def meanRow (nFitted : ℕ) (pred : ℕ → ℕ → ℚ) : ℕ → ℚ :=
  fun a => ((List.range nFitted).map (fun i => pred i a)).sum / (nFitted : ℚ)

/-- `np.dot` of two rows of width `nA`. -/
def dotRow (nA : ℕ) (v w : ℕ → ℚ) : ℚ :=
  ((List.range nA).map (fun a => v a * w a)).sum

namespace DQN

/-- `DQN._next_q`: predict with the target approximator, zero rows flagged
absorbing, take the per-row max over actions. -/
def next_q {S : Type} (nA : ℕ) (predictTarget : S → ℕ → ℚ) :
    List S → List Bool → List ℚ
  | s :: ss, b :: bs =>
      rowMax nA (maskRow b (predictTarget s)) :: next_q nA predictTarget ss bs
  | _, _ => []

end DQN

namespace DoubleDQN

/-- `DoubleDQN._next_q`: mask the **train** prediction, select its argmax
action, return the **target** prediction at that action (the returned
value itself is not masked). -/
def next_q {S : Type} (nA : ℕ) (predictTrain predictTarget : S → ℕ → ℚ) :
    List S → List Bool → List ℚ
  | s :: ss, b :: bs =>
      predictTarget s (rowArgmax nA (maskRow b (predictTrain s))) ::
        next_q nA predictTrain predictTarget ss bs
  | _, _ => []

end DoubleDQN

namespace AveragedDQN

/-- `AveragedDQN._next_q`: average the predictions of the first
`nFitted` target slots, mask absorbing rows, take the per-row max.
`pred i s` is `target_approximator.predict(s, idx=i)`. -/
def next_q {S : Type} (nA nFitted : ℕ) (pred : ℕ → S → ℕ → ℚ) :
    List S → List Bool → List ℚ
  | s :: ss, b :: bs =>
      rowMax nA (maskRow b (meanRow nFitted (fun i => pred i s))) ::
        next_q nA nFitted pred ss bs
  | _, _ => []

end AveragedDQN

namespace WeightedDQN

/-- `count[a]` of `WeightedDQN._next_q` for one sample: how many of the
first `nFitted` slots have argmax action `a`
(`np.unique(max_idx, return_counts=True)` scattered into `count`). -/
def argmaxCount (nA nFitted : ℕ) (pred : ℕ → ℕ → ℚ) (a : ℕ) : ℚ :=
  (((List.range nFitted).filter
      (fun i => rowArgmax nA (pred i) = a)).length : ℚ)

/-- The empirical weight vector `w = count / float(nFitted)`. -/
def weightVec (nA nFitted : ℕ) (pred : ℕ → ℕ → ℚ) (a : ℕ) : ℚ :=
  argmaxCount nA nFitted pred a / (nFitted : ℚ)

/-- The per-sample scalar of `WeightedDQN._next_q` before the absorbing
mask: `W[i] = np.dot(w, means)`. -/
def sampleValue (nA nFitted : ℕ) (pred : ℕ → ℕ → ℚ) : ℚ :=
  dotRow nA (weightVec nA nFitted pred) (meanRow nFitted pred)

/-- `WeightedDQN._next_q`: the weighted per-sample value, then
`W *= 1 - absorbing`. -/
def next_q {S : Type} (nA nFitted : ℕ) (pred : ℕ → S → ℕ → ℚ) :
    List S → List Bool → List ℚ
  | s :: ss, b :: bs =>
      (1 - boolToQ b) * sampleValue nA nFitted (fun i => pred i s) ::
        next_q nA nFitted pred ss bs
  | _, _ => []

end WeightedDQN

/-- One transition of the dataset `fit` receives. -/
structure Transition (S A : Type) where
  state : S
  action : A
  reward : ℚ
  next_state : S
  absorbing : Bool

/-- The six aligned sequences `ReplayMemory.get(batch_size)` returns
(the unused extra field is dropped). -/
structure SampledBatch (S A : Type) where
  state : List S
  action : List A
  reward : List ℚ
  next_state : List S
  absorbing : List Bool

/-- The configuration values `DQN.__init__` reads from
`params['algorithm_params']`, plus `gamma`. -/
structure DQNParams where
  batch_size : ℕ
  clip_reward : Bool
  target_update_frequency : ℕ
  n_approximators : ℕ
  max_no_op_actions : ℕ
  history_length : ℕ
  gamma : ℚ

/-- The mutable state of a base `DQN` agent that `fit` touches.
`ρ` is the opaque replay-memory state, `Θ` the opaque approximator
weights. `fit_log` and `sync_history` are ghost observation logs: each
`approximator.fit(state, action, q)` call appends its arguments to
`fit_log`, and each `target_approximator...set_weights` call appends the
current `n_updates` to `sync_history`. -/
structure DQNState (S A Θ ρ : Type) where
  replay_memory : ρ
  n_updates : ℕ
  train : Θ
  target : Θ
  fit_log : List (List S × List A × List ℚ)
  sync_history : List ℕ

namespace DQN

variable {S A Θ ρ : Type}

/-- `DQN._update_target`: full hard sync of the target weights from the
train weights when `n_updates % target_update_frequency == 0`. -/
def update_target (P : DQNParams) (st : DQNState S A Θ ρ) : DQNState S A Θ ρ :=
  if st.n_updates % P.target_update_frequency = 0 then
    { st with target := st.train,
              sync_history := st.sync_history ++ [st.n_updates] }
  else st

/-- `DQN.fit(dataset, n_iterations)`.

External contracts passed as parameters: `add` is `ReplayMemory.add`,
`sample` is `ReplayMemory.get`, `predict` evaluates approximator weights,
and `train_step` is the weight change `approximator.fit` performs.
Returns the state after the call together with `some msg` when the
`assert n_iterations == 1` fails (the dataset is already in replay memory
at that point, so the assertion leaves the mutated state behind). -/
def fit (P : DQNParams) (nA : ℕ)
    (add : ρ → List (Transition S A) → ρ)
    (sample : ρ → ℕ → SampledBatch S A)
    (predict : Θ → S → ℕ → ℚ)
    (train_step : Θ → List S × List A × List ℚ → Θ)
    (st : DQNState S A Θ ρ) (dataset : List (Transition S A))
    (n_iterations : ℤ) : DQNState S A Θ ρ × Option String :=
  let st1 := { st with replay_memory := add st.replay_memory dataset }
  if n_iterations = 0 then (st1, none)
  else if n_iterations = 1 then
    let b := sample st1.replay_memory P.batch_size
    let reward := if P.clip_reward then b.reward.map npClip1 else b.reward
    let q_next := next_q nA (predict st1.target) b.next_state b.absorbing
    let q := List.zipWith (fun r n => r + P.gamma * n) reward q_next
    let st2 := { st1 with
      train := train_step st1.train (b.state, b.action, q),
      fit_log := st1.fit_log ++ [(b.state, b.action, q)],
      n_updates := st1.n_updates + 1 }
    (update_target P st2, none)
  else (st1, some "AssertionError: n_iterations == 1")

/-- Fold a sequence of `fit` calls (the error component of each call is
discarded, as every run below only uses `n_iterations ∈ \x7b0, 1\x7d`). -/
def run (P : DQNParams) (nA : ℕ)
    (add : ρ → List (Transition S A) → ρ)
    (sample : ρ → ℕ → SampledBatch S A)
    (predict : Θ → S → ℕ → ℚ)
    (train_step : Θ → List S × List A × List ℚ → Θ)
    (st : DQNState S A Θ ρ) :
    List (List (Transition S A) × ℤ) → DQNState S A Θ ρ
  | [] => st
  | c :: cs =>
      run P nA add sample predict train_step
        (fit P nA add sample predict train_step st c.1 c.2).1 cs

end DQN

/-- The mutable state of an `AveragedDQN` (and `WeightedDQN`) agent:
the target approximator is an `Ensemble` of `n_approximators` slots
(`target_approximator.model[i]`), and `_n_fitted_target_models` counts the
slots synchronized so far. The ghost `sync_slots` log records, in order,
the slot index overwritten at each sync event. -/
structure AvgDQNState (S A Θ ρ : Type) where
  replay_memory : ρ
  n_updates : ℕ
  train : Θ
  target_slots : List Θ
  n_fitted_target_models : ℕ
  fit_log : List (List S × List A × List ℚ)
  sync_slots : List ℕ

namespace AveragedDQN

variable {S A Θ ρ : Type}

/-- The fresh state `AveragedDQN.__init__` leaves behind: zero updates,
every ensemble slot set from the train weights, and
`_n_fitted_target_models = 1`. -/
def init (P : DQNParams) (replay0 : ρ) (train0 : Θ) : AvgDQNState S A Θ ρ where
  replay_memory := replay0
  n_updates := 0
  train := train0
  target_slots := List.replicate P.n_approximators train0
  n_fitted_target_models := 1
  fit_log := []
  sync_slots := []

/-- `AveragedDQN._update_target`: when `n_updates % target_update_frequency
== 0`, overwrite only slot `idx = n_updates / target_update_frequency %
n_approximators` with the train weights (Python 2 integer division), and
bump `_n_fitted_target_models` while it is below `n_approximators`. -/
def update_target (P : DQNParams) (st : AvgDQNState S A Θ ρ) :
    AvgDQNState S A Θ ρ :=
  if st.n_updates % P.target_update_frequency = 0 then
    let idx := st.n_updates / P.target_update_frequency % P.n_approximators
    { st with
      target_slots := st.target_slots.set idx st.train,
      sync_slots := st.sync_slots ++ [idx],
      n_fitted_target_models :=
        if st.n_fitted_target_models < P.n_approximators then
          st.n_fitted_target_models + 1
        else st.n_fitted_target_models }
  else st

/-- `fit` as inherited by `AveragedDQN`: the body of `DQN.fit` with the
dynamically dispatched `_next_q` and `_update_target` of this class.
`predict w s` is the prediction of one ensemble slot with weights `w`. -/
def fit [Inhabited Θ] (P : DQNParams) (nA : ℕ)
    (add : ρ → List (Transition S A) → ρ)
    (sample : ρ → ℕ → SampledBatch S A)
    (predict : Θ → S → ℕ → ℚ)
    (train_step : Θ → List S × List A × List ℚ → Θ)
    (st : AvgDQNState S A Θ ρ) (dataset : List (Transition S A))
    (n_iterations : ℤ) : AvgDQNState S A Θ ρ × Option String :=
  let st1 := { st with replay_memory := add st.replay_memory dataset }
  if n_iterations = 0 then (st1, none)
  else if n_iterations = 1 then
    let b := sample st1.replay_memory P.batch_size
    let reward := if P.clip_reward then b.reward.map npClip1 else b.reward
    let q_next := next_q nA st1.n_fitted_target_models
      (fun i s => predict (st1.target_slots.getD i default) s)
      b.next_state b.absorbing
    let q := List.zipWith (fun r n => r + P.gamma * n) reward q_next
    let st2 := { st1 with
      train := train_step st1.train (b.state, b.action, q),
      fit_log := st1.fit_log ++ [(b.state, b.action, q)],
      n_updates := st1.n_updates + 1 }
    (update_target P st2, none)
  else (st1, some "AssertionError: n_iterations == 1")

/-- Fold a sequence of `AveragedDQN.fit` calls. -/
def run [Inhabited Θ] (P : DQNParams) (nA : ℕ)
    (add : ρ → List (Transition S A) → ρ)
    (sample : ρ → ℕ → SampledBatch S A)
    (predict : Θ → S → ℕ → ℚ)
    (train_step : Θ → List S × List A × List ℚ → Θ)
    (st : AvgDQNState S A Θ ρ) :
    List (List (Transition S A) × ℤ) → AvgDQNState S A Θ ρ
  | [] => st
  | c :: cs =>
      run P nA add sample predict train_step
        (fit P nA add sample predict train_step st c.1 c.2).1 cs

end AveragedDQN

namespace WeightedDQN

variable {S A Θ ρ : Type}

/-- `fit` as inherited by `WeightedDQN`: identical to `AveragedDQN.fit`
except that `_next_q` dispatches to `WeightedDQN.next_q`;
`_update_target` is inherited unchanged from `AveragedDQN`. -/
def fit [Inhabited Θ] (P : DQNParams) (nA : ℕ)
    (add : ρ → List (Transition S A) → ρ)
    (sample : ρ → ℕ → SampledBatch S A)
    (predict : Θ → S → ℕ → ℚ)
    (train_step : Θ → List S × List A × List ℚ → Θ)
    (st : AvgDQNState S A Θ ρ) (dataset : List (Transition S A))
    (n_iterations : ℤ) : AvgDQNState S A Θ ρ × Option String :=
  let st1 := { st with replay_memory := add st.replay_memory dataset }
  if n_iterations = 0 then (st1, none)
  else if n_iterations = 1 then
    let b := sample st1.replay_memory P.batch_size
    let reward := if P.clip_reward then b.reward.map npClip1 else b.reward
    let q_next := next_q nA st1.n_fitted_target_models
      (fun i s => predict (st1.target_slots.getD i default) s)
      b.next_state b.absorbing
    let q := List.zipWith (fun r n => r + P.gamma * n) reward q_next
    let st2 := { st1 with
      train := train_step st1.train (b.state, b.action, q),
      fit_log := st1.fit_log ++ [(b.state, b.action, q)],
      n_updates := st1.n_updates + 1 }
    (AveragedDQN.update_target P st2, none)
  else (st1, some "AssertionError: n_iterations == 1")

/-- Fold a sequence of `WeightedDQN.fit` calls. -/
def run [Inhabited Θ] (P : DQNParams) (nA : ℕ)
    (add : ρ → List (Transition S A) → ρ)
    (sample : ρ → ℕ → SampledBatch S A)
    (predict : Θ → S → ℕ → ℚ)
    (train_step : Θ → List S × List A × List ℚ → Θ)
    (st : AvgDQNState S A Θ ρ) :
    List (List (Transition S A) × ℤ) → AvgDQNState S A Θ ρ
  | [] => st
  | c :: cs =>
      run P nA add sample predict train_step
        (fit P nA add sample predict train_step st c.1 c.2).1 cs

end WeightedDQN

/-- Modelled from the spec: `np.random.randint(low, high)` (numpy is an
external collaborator) draws uniformly from the half-open range
`[low, high)` and fails with `ValueError` when `low >= high`; the draw is
determinized by the random source value `r`. -/
def np_random_randint (low high r : ℕ) : Except String ℕ :=
  if low < high then Except.ok (low + r % (high - low))
  else Except.error "ValueError: low >= high"

/-- Modelled from the spec: `Buffer.add` (`mushroom.utils.replay_memory`
is outside the translated file) pushes a frame and evicts the oldest once
the fixed capacity `size` is exceeded (spec 4.2, FIFO). The buffer list
keeps the most recent frame last; `Buffer.get` returns this ordered
stack. -/
def bufferAdd {S : Type} (size : ℕ) (buf : List S) (s : S) : List S :=
  let b := buf ++ [s]
  b.drop (b.length - size)

/-- The episode-local state `draw_action` / `episode_start` touch.
`Pol` is the opaque policy state. -/
structure DrawState (S A Pol : Type) where
  buffer : List S
  episode_steps : ℕ
  no_op_actions : ℕ
  policy : Pol

namespace DQN

variable {S A Pol : Type}

/-- `DQN.draw_action(state)`: push `state` into the frame buffer; while
`episode_steps < no_op_actions` return `np.array([no_op_action_value])`
(passed here as `noop_action`) and only advance the policy schedule
(`policy.update()`, the parameter `policy_update`); otherwise take the
extended state from the buffer and delegate to the `Agent` superclass
(the parameter `agent_draw`, modelled from the spec: the `Agent` base
class delegates to the policy). `episode_steps` is incremented
unconditionally. -/
def draw_action (hist : ℕ) (noop_action : A)
    (policy_update : Pol → Pol) (agent_draw : Pol → List S → A × Pol)
    (st : DrawState S A Pol) (s : S) : A × DrawState S A Pol :=
  let buf := bufferAdd hist st.buffer s
  if st.episode_steps < st.no_op_actions then
    (noop_action,
     { st with buffer := buf, policy := policy_update st.policy,
               episode_steps := st.episode_steps + 1 })
  else
    let extended_state := buf
    let ap := agent_draw st.policy extended_state
    (ap.1,
     { st with buffer := buf, policy := ap.2,
               episode_steps := st.episode_steps + 1 })

/-- `DQN.episode_start`: draw `no_op_actions` by
`np.random.randint(buffer.size, max_no_op_actions + 1)` — the buffer was
built with `size = history_length` — and reset `episode_steps` to `0`. -/
def episode_start (P : DQNParams) (r : ℕ) (st : DrawState S A Pol) :
    Except String (DrawState S A Pol) :=
  (np_random_randint P.history_length (P.max_no_op_actions + 1) r).map
    (fun n => { st with no_op_actions := n, episode_steps := 0 })

end DQN

/-! ### Helper lemmas -/

theorem foldl_max_self (l : List ℚ) (c : ℚ) (h : ∀ x ∈ l, x = c) :
    l.foldl max c = c := by
  induction l generalizing c with
  | nil => rfl
  | cons a l ih =>
      have ha : a = c := h a (by simp)
      simp only [List.foldl_cons, ha, max_self]
      exact ih c (fun x hx => h x (by simp [hx]))

theorem listMax_const_zero (l : List ℚ) (h : ∀ x ∈ l, x = 0) :
    listMax l = 0 := by
  cases l with
  | nil => rfl
  | cons a l =>
      have ha : a = 0 := h a (by simp)
      simp only [listMax, ha]
      exact foldl_max_self l 0 (fun x hx => h x (by simp [hx]))

theorem rowMax_maskRow_absorbing (nA : ℕ) (q : ℕ → ℚ) :
    rowMax nA (maskRow true q) = 0 := by
  apply listMax_const_zero
  intro x hx
  rw [List.mem_map] at hx
  obtain ⟨a, -, rfl⟩ := hx
  simp [maskRow, boolToQ]

theorem dqn_next_q_absorbing {S : Type} (nA : ℕ) (Qt : S → ℕ → ℚ) :
    ∀ (ss : List S) (bs : List Bool) (i : ℕ), i < ss.length → i < bs.length →
      bs.getD i false = true → (DQN.next_q nA Qt ss bs).getD i 0 = 0 := by
  intro ss
  induction ss with
  | nil => intro bs i h1; exact absurd h1 (by simp)
  | cons s ss ih =>
      intro bs i h1 h2 hb
      cases bs with
      | nil => exact absurd h2 (by simp)
      | cons b bs =>
          cases i with
          | zero =>
              simp only [List.getD_cons_zero] at hb
              subst hb
              simp only [DQN.next_q, List.getD_cons_zero]
              exact rowMax_maskRow_absorbing nA (Qt s)
          | succ i =>
              simp only [DQN.next_q, List.getD_cons_succ] at hb ⊢
              exact ih bs i (by simpa using h1) (by simpa using h2) hb

theorem avg_next_q_absorbing {S : Type} (nA nF : ℕ)
    (pred : ℕ → S → ℕ → ℚ) :
    ∀ (ss : List S) (bs : List Bool) (i : ℕ), i < ss.length → i < bs.length →
      bs.getD i false = true →
      (AveragedDQN.next_q nA nF pred ss bs).getD i 0 = 0 := by
  intro ss
  induction ss with
  | nil => intro bs i h1; exact absurd h1 (by simp)
  | cons s ss ih =>
      intro bs i h1 h2 hb
      cases bs with
      | nil => exact absurd h2 (by simp)
      | cons b bs =>
          cases i with
          | zero =>
              simp only [List.getD_cons_zero] at hb
              subst hb
              simp only [AveragedDQN.next_q, List.getD_cons_zero]
              exact rowMax_maskRow_absorbing nA _
          | succ i =>
              simp only [AveragedDQN.next_q, List.getD_cons_succ] at hb ⊢
              exact ih bs i (by simpa using h1) (by simpa using h2) hb

theorem weighted_next_q_absorbing {S : Type} (nA nF : ℕ)
    (pred : ℕ → S → ℕ → ℚ) :
    ∀ (ss : List S) (bs : List Bool) (i : ℕ), i < ss.length → i < bs.length →
      bs.getD i false = true →
      (WeightedDQN.next_q nA nF pred ss bs).getD i 0 = 0 := by
  intro ss
  induction ss with
  | nil => intro bs i h1; exact absurd h1 (by simp)
  | cons s ss ih =>
      intro bs i h1 h2 hb
      cases bs with
      | nil => exact absurd h2 (by simp)
      | cons b bs =>
          cases i with
          | zero =>
              simp only [List.getD_cons_zero] at hb
              subst hb
              simp [WeightedDQN.next_q, boolToQ]
          | succ i =>
              simp only [WeightedDQN.next_q, List.getD_cons_succ] at hb ⊢
              exact ih bs i (by simpa using h1) (by simpa using h2) hb

/-! ### Claim C1 -/

/-- C1 (amended): for base `DQN`, `AveragedDQN` and `WeightedDQN`,
`_next_q` returns exactly `0` for every minibatch sample whose absorbing
flag is set, so `next_q` contributes exactly `0` to the bootstrap target
`y = reward + gamma * next_q` there. (`DoubleDQN` is excluded: it masks
only the train-side Q used for argmax selection and returns the target
prediction unmasked — see the counterexample.) -/
theorem C1_absorbing_next_q_zero (S : Type) (nA : ℕ) :
    (∀ (Qt : S → ℕ → ℚ) (ss : List S) (bs : List Bool) (i : ℕ),
      i < ss.length → i < bs.length → bs.getD i false = true →
      (DQN.next_q nA Qt ss bs).getD i 0 = 0) ∧
    (∀ (nF : ℕ) (pred : ℕ → S → ℕ → ℚ) (ss : List S) (bs : List Bool)
      (i : ℕ), i < ss.length → i < bs.length → bs.getD i false = true →
      (AveragedDQN.next_q nA nF pred ss bs).getD i 0 = 0) ∧
    (∀ (nF : ℕ) (pred : ℕ → S → ℕ → ℚ) (ss : List S) (bs : List Bool)
      (i : ℕ), i < ss.length → i < bs.length → bs.getD i false = true →
      (WeightedDQN.next_q nA nF pred ss bs).getD i 0 = 0) :=
  ⟨fun Qt => dqn_next_q_absorbing nA Qt,
   fun nF pred => avg_next_q_absorbing nA nF pred,
   fun nF pred => weighted_next_q_absorbing nA nF pred⟩

/-- C1 (counterexample): in `DoubleDQN._next_q`, an absorbing sample is
not zeroed: with one action, train Q ≡ 5 and target Q ≡ 7, the absorbing
sample's `next_q` is `7`, not `0`. -/
theorem C1_doubledqn_absorbing_nonzero :
    DoubleDQN.next_q (S := Unit) 1
      (fun _ _ => 5) (fun _ _ => 7) [()] [true] = [7] ∧ (7 : ℚ) ≠ 0 := by
  refine ⟨by decide, by norm_num⟩

/-- Witness for C1: the amended theorem applied to a concrete
one-sample absorbing batch for each of the three variants. -/
theorem C1_absorbing_next_q_zero_witness :
    (DQN.next_q (S := Unit) 1 (fun _ _ => 3) [()] [true]).getD 0 0 = 0 ∧
    (AveragedDQN.next_q (S := Unit) 1 1
      (fun _ _ _ => 3) [()] [true]).getD 0 0 = 0 ∧
    (WeightedDQN.next_q (S := Unit) 1 1
      (fun _ _ _ => 3) [()] [true]).getD 0 0 = 0 :=
  ⟨(C1_absorbing_next_q_zero Unit 1).1 (fun _ _ => 3) [()] [true] 0
      (by simp) (by simp) (by simp),
   (C1_absorbing_next_q_zero Unit 1).2.1 1 (fun _ _ _ => 3) [()] [true] 0
      (by simp) (by simp) (by simp),
   (C1_absorbing_next_q_zero Unit 1).2.2 1 (fun _ _ _ => 3) [()] [true] 0
      (by simp) (by simp) (by simp)⟩

/-! ### Step lemmas for `DQN.fit` -/

section DQNFitLemmas

variable {S A Θ ρ : Type} (P : DQNParams) (nA : ℕ)
variable (add : ρ → List (Transition S A) → ρ)
variable (sample : ρ → ℕ → SampledBatch S A)
variable (predict : Θ → S → ℕ → ℚ)
variable (train_step : Θ → List S × List A × List ℚ → Θ)

theorem DQN.fit_zero_eq (st : DQNState S A Θ ρ) (ds : List (Transition S A)) :
    DQN.fit P nA add sample predict train_step st ds 0 =
      ({ st with replay_memory := add st.replay_memory ds }, none) := by
  simp [DQN.fit]

theorem DQN.fit_other_eq (st : DQNState S A Θ ρ) (ds : List (Transition S A))
    (n : ℤ) (h0 : n ≠ 0) (h1 : n ≠ 1) :
    DQN.fit P nA add sample predict train_step st ds n =
      ({ st with replay_memory := add st.replay_memory ds },
       some "AssertionError: n_iterations == 1") := by
  simp [DQN.fit, h0, h1]

theorem DQN.fit_one_n_updates (st : DQNState S A Θ ρ)
    (ds : List (Transition S A)) :
    (DQN.fit P nA add sample predict train_step st ds 1).1.n_updates =
      st.n_updates + 1 := by
  have h0 : ((1 : ℤ) = 0) = False := by norm_num
  have h1 : ((1 : ℤ) = 1) = True := by norm_num
  simp only [DQN.fit, DQN.update_target, h0, h1, if_false, if_true]
  split <;> rfl

theorem DQN.fit_one_sync_history (st : DQNState S A Θ ρ)
    (ds : List (Transition S A)) :
    (DQN.fit P nA add sample predict train_step st ds 1).1.sync_history =
      if (st.n_updates + 1) % P.target_update_frequency = 0 then
        st.sync_history ++ [st.n_updates + 1]
      else st.sync_history := by
  have h0 : ((1 : ℤ) = 0) = False := by norm_num
  have h1 : ((1 : ℤ) = 1) = True := by norm_num
  simp only [DQN.fit, DQN.update_target, h0, h1, if_false, if_true]
  split <;> split <;> simp_all

theorem DQN.fit_one_replay (st : DQNState S A Θ ρ)
    (ds : List (Transition S A)) (n : ℤ) :
    (DQN.fit P nA add sample predict train_step st ds n).1.replay_memory =
      add st.replay_memory ds := by
  simp only [DQN.fit, DQN.update_target]
  split
  · rfl
  · split
    · split <;> rfl
    · rfl

end DQNFitLemmas

theorem DQN.fit_one_target {S A Θ ρ : Type} (P : DQNParams) (nA : ℕ)
    (add : ρ → List (Transition S A) → ρ)
    (sample : ρ → ℕ → SampledBatch S A)
    (predict : Θ → S → ℕ → ℚ)
    (train_step : Θ → List S × List A × List ℚ → Θ)
    (st : DQNState S A Θ ρ) (ds : List (Transition S A)) :
    (DQN.fit P nA add sample predict train_step st ds 1).1.target =
      if (st.n_updates + 1) % P.target_update_frequency = 0 then
        (DQN.fit P nA add sample predict train_step st ds 1).1.train
      else st.target := by
  have h0 : ((1 : ℤ) = 0) = False := by norm_num
  have h1 : ((1 : ℤ) = 1) = True := by norm_num
  simp only [DQN.fit, DQN.update_target, h0, h1, if_false, if_true]
  split <;> split <;> simp_all

/-- Concrete instantiation shared by the closed witnesses below:
one action, trivial weights, a replay memory counting its transitions. -/
def Pw : DQNParams :=
  { batch_size := 32, clip_reward := true, target_update_frequency := 2,
    n_approximators := 3, max_no_op_actions := 0, history_length := 1,
    gamma := 99 / 100 }

def addW : ℕ → List (Transition Unit Unit) → ℕ := fun m ds => m + ds.length

def sampleW : ℕ → ℕ → SampledBatch Unit Unit :=
  fun _ _ => ⟨[()], [()], [2], [()], [false]⟩

def predictW : Unit → Unit → ℕ → ℚ := fun _ _ _ => 1

def stepW : Unit → List Unit × List Unit × List ℚ → Unit := fun _ _ => ()

def stW : DQNState Unit Unit Unit ℕ :=
  { replay_memory := 0, n_updates := 0, train := (), target := (),
    fit_log := [], sync_history := [] }

/-! ### Claim C2 -/

/-- C2: `fit(dataset, 1)` on the base DQN samples a `batch_size` minibatch
from replay memory (after appending the dataset), clips the sampled reward
elementwise to `[-1, 1]` exactly when `clip_reward` is enabled and leaves
it unchanged otherwise, regresses on `y = reward + gamma * next_q` with
`next_q = _next_q(next_state, absorbing)` evaluated with the target
weights, and fits the **train** approximator — never the target, whose
weights change only through the scheduled hard sync from the train
weights — on `(state, action, y)`. -/
theorem C2_base_fit_one (S A Θ ρ : Type) (P : DQNParams) (nA : ℕ)
    (add : ρ → List (Transition S A) → ρ)
    (sample : ρ → ℕ → SampledBatch S A)
    (predict : Θ → S → ℕ → ℚ)
    (train_step : Θ → List S × List A × List ℚ → Θ)
    (st : DQNState S A Θ ρ) (dataset : List (Transition S A))
    (b : SampledBatch S A) (reward : List ℚ) (y : List ℚ)
    (hb : b = sample (add st.replay_memory dataset) P.batch_size)
    (hr : reward = if P.clip_reward then b.reward.map npClip1 else b.reward)
    (hy : y = List.zipWith (fun r n => r + P.gamma * n) reward
            (DQN.next_q nA (predict st.target) b.next_state b.absorbing)) :
    (DQN.fit P nA add sample predict train_step st dataset 1).2 = none ∧
    (DQN.fit P nA add sample predict train_step st dataset 1).1.fit_log =
      st.fit_log ++ [(b.state, b.action, y)] ∧
    (DQN.fit P nA add sample predict train_step st dataset 1).1.train =
      train_step st.train (b.state, b.action, y) ∧
    (DQN.fit P nA add sample predict train_step st dataset 1).1.target =
      (if (st.n_updates + 1) % P.target_update_frequency = 0 then
        train_step st.train (b.state, b.action, y)
       else st.target) ∧
    (∀ x : ℚ,
      -1 ≤ npClip1 x ∧ npClip1 x ≤ 1 ∧ (-1 ≤ x → x ≤ 1 → npClip1 x = x)) := by
  subst hb hr hy
  have h0 : ((1 : ℤ) = 0) = False := by norm_num
  have h1 : ((1 : ℤ) = 1) = True := by norm_num
  refine ⟨?_, ?_, ?_, ?_, ?_⟩
  · simp only [DQN.fit, DQN.update_target, h0, h1, if_false, if_true]
  · simp only [DQN.fit, DQN.update_target, h0, h1, if_false, if_true]
    split <;> rfl
  · simp only [DQN.fit, DQN.update_target, h0, h1, if_false, if_true]
    split <;> rfl
  · simp only [DQN.fit, DQN.update_target, h0, h1, if_false, if_true]
    split <;> split <;> simp_all
  · intro x
    refine ⟨le_min (le_max_right x (-1)) (by norm_num), min_le_right _ _,
            fun hl hu => ?_⟩
    rw [npClip1, max_eq_left hl, min_eq_left hu]

/-- Witness for C2: the theorem applied to the concrete instantiation;
the minibatch, clipped reward and target are computed by `rfl`. -/
theorem C2_base_fit_one_witness :
    (DQN.fit Pw 1 addW sampleW predictW stepW stW [] 1).2 = none ∧
    (DQN.fit Pw 1 addW sampleW predictW stepW stW [] 1).1.fit_log =
      [] ++ [([()], [()],
        List.zipWith (fun r n => r + Pw.gamma * n)
          ((sampleW (addW 0 []) 32).reward.map npClip1)
          (DQN.next_q 1 (predictW ()) [()] [false]))] :=
  ⟨(C2_base_fit_one Unit Unit Unit ℕ Pw 1 addW sampleW predictW stepW stW []
      _ _ _ rfl rfl rfl).1,
   (C2_base_fit_one Unit Unit Unit ℕ Pw 1 addW sampleW predictW stepW stW []
      _ _ _ rfl rfl rfl).2.1⟩

/-! ### Claim C4 -/

/-- C4: on the base DQN, `n_updates` grows by exactly 1 per
`fit(dataset, 1)` and by 0 per `fit(dataset, 0)`; a full hard sync of the
target from the train weights happens after a `fit(dataset, 1)` call iff
the resulting `n_updates` is divisible by `target_update_frequency`; and
with `target_update_frequency = 2`, five successive `fit(dataset, 1)`
calls from `n_updates = 0` sync exactly after updates 2 and 4. -/
theorem C4_n_updates_and_sync_schedule (S A Θ ρ : Type) (P : DQNParams)
    (nA : ℕ)
    (add : ρ → List (Transition S A) → ρ)
    (sample : ρ → ℕ → SampledBatch S A)
    (predict : Θ → S → ℕ → ℚ)
    (train_step : Θ → List S × List A × List ℚ → Θ)
    (_hfreq : 0 < P.target_update_frequency) :
    (∀ (st : DQNState S A Θ ρ) (ds : List (Transition S A)),
      (DQN.fit P nA add sample predict train_step st ds 1).1.n_updates =
        st.n_updates + 1) ∧
    (∀ (st : DQNState S A Θ ρ) (ds : List (Transition S A)),
      (DQN.fit P nA add sample predict train_step st ds 0).1.n_updates =
        st.n_updates) ∧
    (∀ (st : DQNState S A Θ ρ) (ds : List (Transition S A)),
      (DQN.fit P nA add sample predict train_step st ds 1).1.sync_history =
        (if (st.n_updates + 1) % P.target_update_frequency = 0 then
          st.sync_history ++ [st.n_updates + 1]
         else st.sync_history) ∧
      (DQN.fit P nA add sample predict train_step st ds 1).1.target =
        (if (st.n_updates + 1) % P.target_update_frequency = 0 then
          (DQN.fit P nA add sample predict train_step st ds 1).1.train
         else st.target)) ∧
    (P.target_update_frequency = 2 →
      ∀ (st0 : DQNState S A Θ ρ) (ds : List (Transition S A)),
        st0.n_updates = 0 → st0.sync_history = [] →
        (DQN.run P nA add sample predict train_step st0
          (List.replicate 5 (ds, 1))).sync_history = [2, 4]) := by
  refine ⟨fun st ds => DQN.fit_one_n_updates P nA add sample predict
            train_step st ds,
          fun st ds => by rw [DQN.fit_zero_eq],
          fun st ds => ⟨DQN.fit_one_sync_history P nA add sample predict
            train_step st ds,
            DQN.fit_one_target P nA add sample predict train_step st ds⟩,
          ?_⟩
  intro h2 st0 ds h0 hsh
  simp only [List.replicate, DQN.run]
  set s1 := (DQN.fit P nA add sample predict train_step st0 ds 1).1 with hs1
  have n1 : s1.n_updates = 1 := by
    rw [hs1, DQN.fit_one_n_updates, h0]
  have sh1 : s1.sync_history = [] := by
    rw [hs1, DQN.fit_one_sync_history, h0, hsh, h2]
    norm_num
  set s2 := (DQN.fit P nA add sample predict train_step s1 ds 1).1 with hs2
  have n2 : s2.n_updates = 2 := by
    rw [hs2, DQN.fit_one_n_updates, n1]
  have sh2 : s2.sync_history = [2] := by
    rw [hs2, DQN.fit_one_sync_history, n1, sh1, h2]
    norm_num
  set s3 := (DQN.fit P nA add sample predict train_step s2 ds 1).1 with hs3
  have n3 : s3.n_updates = 3 := by
    rw [hs3, DQN.fit_one_n_updates, n2]
  have sh3 : s3.sync_history = [2] := by
    rw [hs3, DQN.fit_one_sync_history, n2, sh2, h2]
    norm_num
  set s4 := (DQN.fit P nA add sample predict train_step s3 ds 1).1 with hs4
  have n4 : s4.n_updates = 4 := by
    rw [hs4, DQN.fit_one_n_updates, n3]
  have sh4 : s4.sync_history = [2, 4] := by
    rw [hs4, DQN.fit_one_sync_history, n3, sh3, h2]
    norm_num
  set s5 := (DQN.fit P nA add sample predict train_step s4 ds 1).1 with hs5
  have sh5 : s5.sync_history = [2, 4] := by
    rw [hs5, DQN.fit_one_sync_history, n4, sh4, h2]
    norm_num
  exact sh5

/-- Witness for C4: the theorem applied to the concrete instantiation
(`target_update_frequency = 2`): five fits from `stW` sync after
updates 2 and 4. -/
theorem C4_n_updates_and_sync_schedule_witness :
    (DQN.fit Pw 1 addW sampleW predictW stepW stW [] 1).1.n_updates = 1 ∧
    (DQN.run Pw 1 addW sampleW predictW stepW stW
      (List.replicate 5 ([], 1))).sync_history = [2, 4] := by
  have h := C4_n_updates_and_sync_schedule Unit Unit Unit ℕ Pw 1
    addW sampleW predictW stepW (by decide)
  exact ⟨h.1 stW [], h.2.2.2 rfl stW [] rfl rfl⟩

/-! ### Claim C8 -/

/-- C8: every `fit(dataset, n_iterations)` call first appends the dataset
to replay memory; with `n_iterations = 0` the call does nothing else
(no sampling, no approximator fit, `n_updates` unchanged); with any
`n_iterations` other than 0 and 1 the `assert n_iterations == 1` fails
synchronously, leaving the state otherwise untouched. -/
theorem C8_fit_appends_then_validates (S A Θ ρ : Type) (P : DQNParams)
    (nA : ℕ)
    (add : ρ → List (Transition S A) → ρ)
    (sample : ρ → ℕ → SampledBatch S A)
    (predict : Θ → S → ℕ → ℚ)
    (train_step : Θ → List S × List A × List ℚ → Θ)
    (st : DQNState S A Θ ρ) (ds : List (Transition S A)) :
    (∀ n : ℤ,
      (DQN.fit P nA add sample predict train_step st ds n).1.replay_memory =
        add st.replay_memory ds) ∧
    DQN.fit P nA add sample predict train_step st ds 0 =
      ({ st with replay_memory := add st.replay_memory ds }, none) ∧
    (∀ n : ℤ, n ≠ 0 → n ≠ 1 →
      DQN.fit P nA add sample predict train_step st ds n =
        ({ st with replay_memory := add st.replay_memory ds },
         some "AssertionError: n_iterations == 1")) :=
  ⟨fun n => DQN.fit_one_replay P nA add sample predict train_step st ds n,
   DQN.fit_zero_eq P nA add sample predict train_step st ds,
   fun n h0 h1 =>
     DQN.fit_other_eq P nA add sample predict train_step st ds n h0 h1⟩

/-- Witness for C8: the theorem applied to the concrete instantiation at
`n_iterations = 5`: the dataset is appended and the assertion fails. -/
theorem C8_fit_appends_then_validates_witness :
    DQN.fit Pw 1 addW sampleW predictW stepW stW
        [⟨(), (), 1, (), false⟩] 5 =
      ({ stW with replay_memory := 1 },
       some "AssertionError: n_iterations == 1") := by
  have h := (C8_fit_appends_then_validates Unit Unit Unit ℕ Pw 1
    addW sampleW predictW stepW stW [⟨(), (), 1, (), false⟩]).2.2 5
    (by decide) (by decide)
  rw [h]
  rfl

/-! ### Claims C9 and C10 -/

/-- C9: per episode, `episode_start` resets `episode_steps` to 0 and draws
`no_op_actions` from the inclusive range
`[history_length, max_no_op_actions]` (every value of that range is
reachable); every `draw_action(state)` pushes `state` into the frame
buffer and increments `episode_steps` unconditionally; while
`episode_steps < no_op_actions` it returns the fixed no-op action and only
advances the policy schedule, independent of the approximator-backed
delegate; afterwards it delegates to the policy on the extended state
built from the buffer. -/
theorem C9_no_op_start_protocol (S A Pol : Type) (P : DQNParams)
    (hrange : P.history_length ≤ P.max_no_op_actions) :
    (∀ (r : ℕ) (st : DrawState S A Pol), ∃ st',
      DQN.episode_start P r st = Except.ok st' ∧
      st'.episode_steps = 0 ∧
      P.history_length ≤ st'.no_op_actions ∧
      st'.no_op_actions ≤ P.max_no_op_actions ∧
      st'.buffer = st.buffer ∧ st'.policy = st.policy) ∧
    (∀ v : ℕ, P.history_length ≤ v → v ≤ P.max_no_op_actions →
      ∀ st : DrawState S A Pol, ∃ (r : ℕ) (st' : DrawState S A Pol),
        DQN.episode_start P r st = Except.ok st' ∧
        st'.no_op_actions = v) ∧
    (∀ (hist : ℕ) (noop : A) (pu : Pol → Pol) (ad : Pol → List S → A × Pol)
       (st : DrawState S A Pol) (s : S),
      ((DQN.draw_action hist noop pu ad st s).2.buffer =
        bufferAdd hist st.buffer s) ∧
      ((DQN.draw_action hist noop pu ad st s).2.episode_steps =
        st.episode_steps + 1) ∧
      (st.episode_steps < st.no_op_actions →
        (DQN.draw_action hist noop pu ad st s).1 = noop ∧
        (DQN.draw_action hist noop pu ad st s).2.policy = pu st.policy ∧
        ∀ ad2 : Pol → List S → A × Pol,
          DQN.draw_action hist noop pu ad st s =
            DQN.draw_action hist noop pu ad2 st s) ∧
      (¬ st.episode_steps < st.no_op_actions →
        (DQN.draw_action hist noop pu ad st s).1 =
          (ad st.policy (bufferAdd hist st.buffer s)).1 ∧
        (DQN.draw_action hist noop pu ad st s).2.policy =
          (ad st.policy (bufferAdd hist st.buffer s)).2)) := by
  have hlt : P.history_length < P.max_no_op_actions + 1 := by omega
  refine ⟨?_, ?_, ?_⟩
  · intro r st
    refine ⟨⟨st.buffer, 0,
      P.history_length + r % (P.max_no_op_actions + 1 - P.history_length),
      st.policy⟩, ?_, rfl, ?_, ?_, rfl, rfl⟩
    · simp only [DQN.episode_start, np_random_randint, if_pos hlt]
      rfl
    · exact Nat.le_add_right _ _
    · have := Nat.mod_lt r
        (y := P.max_no_op_actions + 1 - P.history_length) (by omega)
      simp only
      omega
  · intro v hv1 hv2 st
    refine ⟨v - P.history_length, ⟨st.buffer, 0,
      P.history_length + (v - P.history_length) %
        (P.max_no_op_actions + 1 - P.history_length), st.policy⟩, ?_, ?_⟩
    · simp only [DQN.episode_start, np_random_randint, if_pos hlt]
      rfl
    · simp only
      rw [Nat.mod_eq_of_lt (by omega)]
      omega
  · intro hist noop pu ad st s
    by_cases hsteps : st.episode_steps < st.no_op_actions
    · refine ⟨?_, ?_, fun _ => ⟨?_, ?_, fun ad2 => ?_⟩,
              fun h => absurd hsteps h⟩ <;>
        simp [DQN.draw_action, hsteps]
    · refine ⟨?_, ?_, fun h => absurd h hsteps, fun _ => ⟨?_, ?_⟩⟩ <;>
        simp [DQN.draw_action, hsteps]

/-- Witness for C9: a configuration with `history_length = 1` and
`max_no_op_actions = 4`; the first random draw gives `no_op_actions = 1`
and a no-op step returns the no-op action. -/
theorem C9_no_op_start_protocol_witness :
    (∃ st', @DQN.episode_start Unit Unit Unit
        { Pw with max_no_op_actions := 4 } 0 ⟨[], 3, 0, ()⟩ =
          Except.ok st' ∧ st'.episode_steps = 0 ∧
          1 ≤ st'.no_op_actions ∧ st'.no_op_actions ≤ 4 ∧
          st'.buffer = [] ∧ st'.policy = ()) ∧
    (@DQN.draw_action Unit Unit Unit 1 ()
        id (fun p _e => ((), p)) ⟨[], 0, 1, ()⟩ ()).2.episode_steps = 1 := by
  have h := C9_no_op_start_protocol Unit Unit Unit
    { Pw with max_no_op_actions := 4 } (by decide)
  exact ⟨h.1 0 ⟨[], 3, 0, ()⟩,
         (h.2.2 1 () id (fun p _e => ((), p)) ⟨[], 0, 1, ()⟩ ()).2.1⟩

/-- C10: whenever `max_no_op_actions < history_length` — in particular
with the default configuration `max_no_op_actions = 0`,
`history_length = 1` — `episode_start` always fails: the numpy draw
`np.random.randint(buffer.size, max_no_op_actions + 1)` has
`low >= high`, so no episode can begin. -/
theorem C10_episode_start_empty_range (S A Pol : Type) (P : DQNParams)
    (h : P.max_no_op_actions < P.history_length) :
    ∀ (r : ℕ) (st : DrawState S A Pol),
      DQN.episode_start P r st =
        Except.error "ValueError: low >= high" := by
  intro r st
  have hge : ¬ P.history_length < P.max_no_op_actions + 1 := by omega
  simp only [DQN.episode_start, np_random_randint, if_neg hge]
  rfl

/-- Witness for C10: the default configuration (`max_no_op_actions = 0`,
`history_length = 1`, as in `Pw`) makes `episode_start` fail. -/
theorem C10_episode_start_empty_range_witness :
    @DQN.episode_start Unit Unit Unit Pw 7
        ⟨[], 5, 2, ()⟩ = Except.error "ValueError: low >= high" :=
  C10_episode_start_empty_range Unit Unit Unit Pw (by decide) 7 ⟨[], 5, 2, ()⟩

/-! ### Claim C5 -/

/-- C5: `AveragedDQN._next_q` returns, per sample, the max over actions of
the per-action mean of exactly the first `n_fitted_target_models` slot
predictions, with the absorbing mask applied to the averaged row (after
averaging, before the max); slots with index `>= n_fitted_target_models`
never contribute to the result. -/
theorem C5_averaged_next_q_shape (S : Type) (nA : ℕ) :
    (∀ (nF : ℕ) (pred : ℕ → S → ℕ → ℚ) (ss : List S) (bs : List Bool)
       (i : ℕ) (s0 : S), i < ss.length → i < bs.length →
      (AveragedDQN.next_q nA nF pred ss bs).getD i 0 =
        rowMax nA (maskRow (bs.getD i false)
          (meanRow nF (fun j => pred j (ss.getD i s0))))) ∧
    (∀ (nF : ℕ) (pred pred' : ℕ → S → ℕ → ℚ) (ss : List S) (bs : List Bool),
      (∀ j, j < nF → pred j = pred' j) →
      AveragedDQN.next_q nA nF pred ss bs =
        AveragedDQN.next_q nA nF pred' ss bs) := by
  constructor
  · intro nF pred ss
    induction ss with
    | nil => intro bs i s0 h1; exact absurd h1 (by simp)
    | cons s ss ih =>
        intro bs i s0 h1 h2
        cases bs with
        | nil => exact absurd h2 (by simp)
        | cons b bs =>
            cases i with
            | zero => rfl
            | succ i =>
                simp only [AveragedDQN.next_q, List.getD_cons_succ]
                exact ih bs i s0 (by simpa using h1) (by simpa using h2)
  · intro nF pred pred' ss
    induction ss with
    | nil => intro bs h; cases bs <;> rfl
    | cons s ss ih =>
        intro bs h
        cases bs with
        | nil => rfl
        | cons b bs =>
            simp only [AveragedDQN.next_q]
            congr 1
            · have hm : meanRow nF (fun j => pred j s) =
                  meanRow nF (fun j => pred' j s) := by
                funext a
                simp only [meanRow]
                congr 2
                apply List.map_congr_left
                intro j hj
                rw [h j (List.mem_range.mp hj)]
              rw [hm]
            · exact ih bs h

/-- Witness for C5: the theorem applied to a concrete two-slot ensemble
with one fitted slot. -/
theorem C5_averaged_next_q_shape_witness :
    (AveragedDQN.next_q (S := Unit) 1 1
        (fun j _ a => (j : ℚ) + (a : ℚ)) [()] [false]).getD 0 0 =
      rowMax 1 (maskRow false (meanRow 1 (fun j => (fun a => (j : ℚ) + (a : ℚ))))) ∧
    AveragedDQN.next_q (S := Unit) 1 1
        (fun j _ a => (j : ℚ) + (a : ℚ)) [()] [false] =
      AveragedDQN.next_q (S := Unit) 1 1
        (fun j _ a => if j < 1 then (j : ℚ) + (a : ℚ) else 99) [()] [false] := by
  constructor
  · exact (C5_averaged_next_q_shape Unit 1).1 1 _ [()] [false] 0 ()
      (by simp) (by simp)
  · exact (C5_averaged_next_q_shape Unit 1).2 1 _ _ [()] [false]
      (fun j hj => by funext s a; simp [hj])

/-! ### Helper lemmas for Claim C6 -/

theorem listRangeSum (n : ℕ) (f : ℕ → ℚ) :
    ((List.range n).map f).sum = ∑ i ∈ Finset.range n, f i := by
  induction n with
  | zero => simp
  | succ n ih =>
      rw [List.range_succ, List.map_append, List.sum_append,
        Finset.sum_range_succ, ih]
      simp

theorem length_filter_of_all {α : Type} (p : α → Bool) :
    ∀ l : List α, (∀ x ∈ l, p x = true) → (l.filter p).length = l.length := by
  intro l
  induction l with
  | nil => intro _; rfl
  | cons a l ih =>
      intro h
      have ha : p a = true := h a (by simp)
      simp only [List.filter_cons, ha, if_true, List.length_cons]
      rw [ih (fun x hx => h x (by simp [hx]))]

theorem length_filter_of_none {α : Type} (p : α → Bool) :
    ∀ l : List α, (∀ x ∈ l, p x = false) → (l.filter p).length = 0 := by
  intro l
  induction l with
  | nil => intro _; rfl
  | cons a l ih =>
      intro h
      have ha : p a = false := h a (by simp)
      simp only [List.filter_cons, ha]
      exact ih (fun x hx => h x (by simp [hx]))

theorem length_filter_partition {α : Type} (p q : α → Bool) :
    ∀ l : List α, (∀ x ∈ l, p x = true ∨ q x = true) →
      (∀ x ∈ l, ¬(p x = true ∧ q x = true)) →
      (l.filter p).length + (l.filter q).length = l.length := by
  intro l
  induction l with
  | nil => intro _ _; rfl
  | cons a l ih =>
      intro hcover hdisj
      have hrec := ih (fun x hx => hcover x (by simp [hx]))
        (fun x hx => hdisj x (by simp [hx]))
      rcases hcover a (by simp) with hp | hq
      · have hq' : q a = false := by
          cases hqa : q a
          · rfl
          · exact absurd ⟨hp, hqa⟩ (hdisj a (by simp))
        simp [List.filter_cons, hp, hq']
        omega
      · have hp' : p a = false := by
          cases hpa : p a
          · rfl
          · exact absurd ⟨hpa, hq⟩ (hdisj a (by simp))
        simp [List.filter_cons, hp', hq]
        omega

theorem sampleValue_as_sum (nA nF : ℕ) (pred : ℕ → ℕ → ℚ) :
    WeightedDQN.sampleValue nA nF pred =
      ∑ a ∈ Finset.range nA,
        WeightedDQN.weightVec nA nF pred a * meanRow nF pred a := by
  rw [WeightedDQN.sampleValue, dotRow, listRangeSum]

theorem argmaxCount_of_all (nA nF : ℕ) (pred : ℕ → ℕ → ℚ) (a0 : ℕ)
    (h : ∀ i, i < nF → rowArgmax nA (pred i) = a0) :
    WeightedDQN.argmaxCount nA nF pred a0 = (nF : ℚ) := by
  rw [WeightedDQN.argmaxCount, length_filter_of_all _ _
    (fun x hx => by simp [h x (List.mem_range.mp hx)]), List.length_range]

theorem argmaxCount_of_none (nA nF : ℕ) (pred : ℕ → ℕ → ℚ) (a : ℕ)
    (h : ∀ i, i < nF → rowArgmax nA (pred i) ≠ a) :
    WeightedDQN.argmaxCount nA nF pred a = 0 := by
  rw [WeightedDQN.argmaxCount, length_filter_of_none _ _
    (fun x hx => by simp [h x (List.mem_range.mp hx)])]
  rfl

theorem weighted_next_q_getD {S : Type} (nA nF : ℕ) (pred : ℕ → S → ℕ → ℚ) :
    ∀ (ss : List S) (bs : List Bool) (i : ℕ) (s0 : S),
      i < ss.length → i < bs.length →
      (WeightedDQN.next_q nA nF pred ss bs).getD i 0 =
        (1 - boolToQ (bs.getD i false)) *
          WeightedDQN.sampleValue nA nF (fun j => pred j (ss.getD i s0)) := by
  intro ss
  induction ss with
  | nil => intro bs i s0 h1; exact absurd h1 (by simp)
  | cons s ss ih =>
      intro bs i s0 h1 h2
      cases bs with
      | nil => exact absurd h2 (by simp)
      | cons b bs =>
          cases i with
          | zero => rfl
          | succ i =>
              simp only [WeightedDQN.next_q, List.getD_cons_succ]
              exact ih bs i s0 (by simpa using h1) (by simpa using h2)

/-! ### Claim C6 -/

/-- C6 (amended): in `WeightedDQN._next_q` the per-sample weight vector is
`w[a] = count[a] / n_fitted_target_models` (`count[a]` = slots whose own
argmax is `a`) and the per-sample value **before the absorbing mask** is
the dot product of `w` with the per-action mean Q-row; the returned value
is that dot product multiplied by `1 - absorbing` (so `0`, not the dot
product, for absorbing samples — see the counterexample). When all fitted
slots share the argmax `a0`, the (non-absorbing) value is the mean Q at
`a0`; when the slots split evenly between two actions `a1 ≠ a2`, the
weight vector sums to `1` and the value is the convex combination
`(mean Q(a1) + mean Q(a2)) / 2`. -/
theorem C6_weighted_dot_product_value (nA : ℕ) :
    (∀ (S : Type) (nF : ℕ) (pred : ℕ → S → ℕ → ℚ) (ss : List S)
       (bs : List Bool) (i : ℕ) (s0 : S), i < ss.length → i < bs.length →
      (WeightedDQN.next_q nA nF pred ss bs).getD i 0 =
        (1 - boolToQ (bs.getD i false)) *
          WeightedDQN.sampleValue nA nF (fun j => pred j (ss.getD i s0))) ∧
    (∀ (nF : ℕ) (pred : ℕ → ℕ → ℚ) (a0 : ℕ), 0 < nF → a0 < nA →
      (∀ i, i < nF → rowArgmax nA (pred i) = a0) →
      WeightedDQN.sampleValue nA nF pred = meanRow nF pred a0) ∧
    (∀ (nF : ℕ) (pred : ℕ → ℕ → ℚ) (a1 a2 : ℕ), 0 < nF → a1 < nA →
      a2 < nA → a1 ≠ a2 →
      (∀ i, i < nF →
        rowArgmax nA (pred i) = a1 ∨ rowArgmax nA (pred i) = a2) →
      WeightedDQN.argmaxCount nA nF pred a1 =
        WeightedDQN.argmaxCount nA nF pred a2 →
      (∑ a ∈ Finset.range nA, WeightedDQN.weightVec nA nF pred a) = 1 ∧
      WeightedDQN.sampleValue nA nF pred =
        (meanRow nF pred a1 + meanRow nF pred a2) / 2) := by
  refine ⟨fun S nF pred => weighted_next_q_getD nA nF pred, ?_, ?_⟩
  · intro nF pred a0 hnF ha0 hall
    have hnF0 : (nF : ℚ) ≠ 0 := by exact_mod_cast hnF.ne'
    rw [sampleValue_as_sum]
    have hw : ∀ a ∈ Finset.range nA,
        WeightedDQN.weightVec nA nF pred a * meanRow nF pred a =
          if a = a0 then meanRow nF pred a else 0 := by
      intro a _
      by_cases h : a = a0
      · subst h
        rw [if_pos rfl, WeightedDQN.weightVec,
          argmaxCount_of_all nA nF pred a hall, div_self hnF0, one_mul]
      · rw [if_neg h, WeightedDQN.weightVec,
          argmaxCount_of_none nA nF pred a
            (fun i hi => by rw [hall i hi]; exact fun he => h he.symm),
          zero_div, zero_mul]
    rw [Finset.sum_congr rfl hw,
      Finset.sum_ite_eq' (Finset.range nA) a0 (fun a => meanRow nF pred a),
      if_pos (Finset.mem_range.mpr ha0)]
  · intro nF pred a1 a2 hnF ha1 ha2 hne hcover heqc
    have hnF0 : (nF : ℚ) ≠ 0 := by exact_mod_cast hnF.ne'
    have hsum_cast : WeightedDQN.argmaxCount nA nF pred a1 +
        WeightedDQN.argmaxCount nA nF pred a2 = (nF : ℚ) := by
      rw [WeightedDQN.argmaxCount, WeightedDQN.argmaxCount, ← Nat.cast_add]
      have hlen := length_filter_partition
        (fun i => decide (rowArgmax nA (pred i) = a1))
        (fun i => decide (rowArgmax nA (pred i) = a2))
        (List.range nF)
        (by
          intro x hx
          rcases hcover x (List.mem_range.mp hx) with h | h <;> simp [h])
        (by
          intro x _ hb
          rcases hb with ⟨h1, h2⟩
          rw [decide_eq_true_eq] at h1 h2
          exact hne (h1 ▸ h2))
      rw [hlen, List.length_range]
    have hzero : ∀ a, a ≠ a1 → a ≠ a2 →
        WeightedDQN.weightVec nA nF pred a = 0 := by
      intro a h1 h2
      rw [WeightedDQN.weightVec, argmaxCount_of_none nA nF pred a
        (fun i hi => by
          rcases hcover i hi with h | h <;> rw [h]
          · exact fun he => h1 he.symm
          · exact fun he => h2 he.symm), zero_div]
    have hw1 : WeightedDQN.weightVec nA nF pred a1 = 1 / 2 := by
      have heq2 : (nF : ℚ) = 2 * WeightedDQN.argmaxCount nA nF pred a1 := by
        linarith
      have hac0 : WeightedDQN.argmaxCount nA nF pred a1 ≠ 0 := by
        intro h
        rw [h, mul_zero] at heq2
        exact hnF0 heq2
      rw [WeightedDQN.weightVec, heq2]
      field_simp
      ring
    have hw2 : WeightedDQN.weightVec nA nF pred a2 = 1 / 2 := by
      rw [WeightedDQN.weightVec, ← heqc, ← WeightedDQN.weightVec]
      exact hw1
    constructor
    · have hsplit : ∀ a ∈ Finset.range nA,
          WeightedDQN.weightVec nA nF pred a =
            (if a = a1 then WeightedDQN.weightVec nA nF pred a1 else 0) +
            (if a = a2 then WeightedDQN.weightVec nA nF pred a2 else 0) := by
        intro a _
        by_cases h1 : a = a1
        · subst h1
          rw [if_pos rfl, if_neg hne, add_zero]
        · by_cases h2 : a = a2
          · subst h2
            rw [if_neg h1, if_pos rfl, zero_add]
          · rw [if_neg h1, if_neg h2, add_zero, hzero a h1 h2]
      rw [Finset.sum_congr rfl hsplit, Finset.sum_add_distrib,
        Finset.sum_ite_eq' (Finset.range nA) a1
          (fun _ => WeightedDQN.weightVec nA nF pred a1),
        Finset.sum_ite_eq' (Finset.range nA) a2
          (fun _ => WeightedDQN.weightVec nA nF pred a2),
        if_pos (Finset.mem_range.mpr ha1),
        if_pos (Finset.mem_range.mpr ha2), hw1, hw2]
      norm_num
    · rw [sampleValue_as_sum]
      have hsplit : ∀ a ∈ Finset.range nA,
          WeightedDQN.weightVec nA nF pred a * meanRow nF pred a =
            (if a = a1 then
              WeightedDQN.weightVec nA nF pred a1 * meanRow nF pred a1
             else 0) +
            (if a = a2 then
              WeightedDQN.weightVec nA nF pred a2 * meanRow nF pred a2
             else 0) := by
        intro a _
        by_cases h1 : a = a1
        · subst h1
          rw [if_pos rfl, if_neg hne, add_zero]
        · by_cases h2 : a = a2
          · subst h2
            rw [if_neg h1, if_pos rfl, zero_add]
          · rw [if_neg h1, if_neg h2, add_zero, hzero a h1 h2, zero_mul]
      rw [Finset.sum_congr rfl hsplit, Finset.sum_add_distrib,
        Finset.sum_ite_eq' (Finset.range nA) a1
          (fun _ => WeightedDQN.weightVec nA nF pred a1 * meanRow nF pred a1),
        Finset.sum_ite_eq' (Finset.range nA) a2
          (fun _ => WeightedDQN.weightVec nA nF pred a2 * meanRow nF pred a2),
        if_pos (Finset.mem_range.mpr ha1),
        if_pos (Finset.mem_range.mpr ha2), hw1, hw2]
      ring

/-- C6 (counterexample): for an absorbing sample the value returned by
`WeightedDQN._next_q` is `0`, not the dot product of the weight vector
with the mean Q-row (here the dot product is `5`). -/
theorem C6_weighted_absorbing_not_dot :
    (WeightedDQN.next_q (S := Unit) 1 1
        (fun _ _ _ => 5) [()] [true]).getD 0 0 = 0 ∧
    WeightedDQN.sampleValue 1 1 (fun _ _ => (5 : ℚ)) = 5 ∧
    (0 : ℚ) ≠ 5 := by
  refine ⟨by norm_num [WeightedDQN.next_q, boolToQ], ?_, by norm_num⟩
  norm_num [WeightedDQN.sampleValue, dotRow, WeightedDQN.weightVec,
    WeightedDQN.argmaxCount, meanRow, rowArgmax, argmaxList, List.range_succ]

/-- Witness for C6: two slots over two actions; all slots agree on argmax
`0` (value = mean Q at 0), and an even 1-1 split across actions 0 and 1
(weights sum to 1, value is the convex combination). -/
theorem C6_weighted_dot_product_value_witness :
    WeightedDQN.sampleValue 2 2 (fun _ a => if a = 0 then (3 : ℚ) else 1) =
      meanRow 2 (fun _ a => if a = 0 then (3 : ℚ) else 1) 0 ∧
    (∑ a ∈ Finset.range 2,
      WeightedDQN.weightVec 2 2
        (fun i a => if a = i then (3 : ℚ) else 1) a) = 1 ∧
    WeightedDQN.sampleValue 2 2 (fun i a => if a = i then (3 : ℚ) else 1) =
      (meanRow 2 (fun i a => if a = i then (3 : ℚ) else 1) 0 +
       meanRow 2 (fun i a => if a = i then (3 : ℚ) else 1) 1) / 2 := by
  have h1 := (C6_weighted_dot_product_value 2).2.1 2
    (fun _ a => if a = 0 then (3 : ℚ) else 1) 0 (by norm_num) (by norm_num)
    (fun i _ => by
      show rowArgmax 2 (fun a => if a = 0 then (3 : ℚ) else 1) = 0
      decide)
  have h2 := (C6_weighted_dot_product_value 2).2.2 2
    (fun i a => if a = i then (3 : ℚ) else 1) 0 1 (by norm_num) (by norm_num)
    (by norm_num) (by norm_num)
    (fun i hi => by
      interval_cases i
      exacts [Or.inl (by decide), Or.inr (by decide)])
    (by decide)
  exact ⟨h1, h2.1, h2.2⟩

/-! ### Step lemmas for `AveragedDQN.fit` / `WeightedDQN.fit` -/

section AvgFitLemmas

variable {S A Θ ρ : Type} [Inhabited Θ] (P : DQNParams) (nA : ℕ)
variable (add : ρ → List (Transition S A) → ρ)
variable (sample : ρ → ℕ → SampledBatch S A)
variable (predict : Θ → S → ℕ → ℚ)
variable (train_step : Θ → List S × List A × List ℚ → Θ)

theorem AveragedDQN.avg_fit_one_n_updates (st : AvgDQNState S A Θ ρ)
    (ds : List (Transition S A)) :
    (AveragedDQN.fit P nA add sample predict train_step st ds 1).1.n_updates =
      st.n_updates + 1 := by
  have h0 : ((1 : ℤ) = 0) = False := by norm_num
  have h1 : ((1 : ℤ) = 1) = True := by norm_num
  simp only [AveragedDQN.fit, AveragedDQN.update_target, h0, h1, if_false,
    if_true]
  split <;> rfl

theorem AveragedDQN.avg_fit_one_sync_slots (st : AvgDQNState S A Θ ρ)
    (ds : List (Transition S A)) :
    (AveragedDQN.fit P nA add sample predict train_step st ds 1).1.sync_slots =
      if (st.n_updates + 1) % P.target_update_frequency = 0 then
        st.sync_slots ++
          [(st.n_updates + 1) / P.target_update_frequency %
            P.n_approximators]
      else st.sync_slots := by
  have h0 : ((1 : ℤ) = 0) = False := by norm_num
  have h1 : ((1 : ℤ) = 1) = True := by norm_num
  simp only [AveragedDQN.fit, AveragedDQN.update_target, h0, h1, if_false,
    if_true]
  split <;> simp_all

theorem AveragedDQN.avg_fit_n_fitted (st : AvgDQNState S A Θ ρ)
    (ds : List (Transition S A)) (n : ℤ) :
    (AveragedDQN.fit P nA add sample predict train_step st ds
        n).1.n_fitted_target_models =
      if n = 1 ∧ (st.n_updates + 1) % P.target_update_frequency = 0 ∧
          st.n_fitted_target_models < P.n_approximators then
        st.n_fitted_target_models + 1
      else st.n_fitted_target_models := by
  simp only [AveragedDQN.fit, AveragedDQN.update_target]
  by_cases hz : n = 0
  · simp [hz]
  · by_cases ho : n = 1
    · subst ho
      simp only [hz, if_false, if_pos rfl, true_and]
      by_cases hm : (st.n_updates + 1) % P.target_update_frequency = 0 <;>
        by_cases hf : st.n_fitted_target_models < P.n_approximators <;>
          simp [hm, hf]
    · simp [hz, ho]

theorem WeightedDQN.weighted_fit_n_fitted (st : AvgDQNState S A Θ ρ)
    (ds : List (Transition S A)) (n : ℤ) :
    (WeightedDQN.fit P nA add sample predict train_step st ds
        n).1.n_fitted_target_models =
      if n = 1 ∧ (st.n_updates + 1) % P.target_update_frequency = 0 ∧
          st.n_fitted_target_models < P.n_approximators then
        st.n_fitted_target_models + 1
      else st.n_fitted_target_models := by
  simp only [WeightedDQN.fit, AveragedDQN.update_target]
  by_cases hz : n = 0
  · simp [hz]
  · by_cases ho : n = 1
    · subst ho
      simp only [hz, if_false, if_pos rfl, true_and]
      by_cases hm : (st.n_updates + 1) % P.target_update_frequency = 0 <;>
        by_cases hf : st.n_fitted_target_models < P.n_approximators <;>
          simp [hm, hf]
    · simp [hz, ho]

theorem AveragedDQN.avg_run_append (st : AvgDQNState S A Θ ρ)
    (l1 l2 : List (List (Transition S A) × ℤ)) :
    AveragedDQN.run P nA add sample predict train_step st (l1 ++ l2) =
      AveragedDQN.run P nA add sample predict train_step
        (AveragedDQN.run P nA add sample predict train_step st l1) l2 := by
  induction l1 generalizing st with
  | nil => rfl
  | cons c cs ih =>
      simp only [List.cons_append, AveragedDQN.run]
      exact ih _

theorem WeightedDQN.weighted_run_append (st : AvgDQNState S A Θ ρ)
    (l1 l2 : List (List (Transition S A) × ℤ)) :
    WeightedDQN.run P nA add sample predict train_step st (l1 ++ l2) =
      WeightedDQN.run P nA add sample predict train_step
        (WeightedDQN.run P nA add sample predict train_step st l1) l2 := by
  induction l1 generalizing st with
  | nil => rfl
  | cons c cs ih =>
      simp only [List.cons_append, WeightedDQN.run]
      exact ih _

theorem AveragedDQN.run_replicate_one_n_updates
    (ds : List (Transition S A)) :
    ∀ (m : ℕ) (st : AvgDQNState S A Θ ρ),
      (AveragedDQN.run P nA add sample predict train_step st
          (List.replicate m (ds, 1))).n_updates = st.n_updates + m := by
  intro m
  induction m with
  | zero => intro st; rfl
  | succ m ih =>
      intro st
      rw [List.replicate_succ', AveragedDQN.avg_run_append]
      simp only [AveragedDQN.run]
      rw [AveragedDQN.avg_fit_one_n_updates, ih]
      omega

end AvgFitLemmas

/-! ### Helper lemmas for Claim C3 -/

theorem getD_range_map (L : ℕ) (g : ℕ → ℕ) (i : ℕ) (h : i < L) :
    ((List.range L).map g).getD i 0 = g i := by
  rw [List.getD_eq_getElem?_getD, List.getElem?_map, List.getElem?_range h]
  rfl

theorem getD_set_of_ne {α : Type} (l : List α) (i j : ℕ) (x d : α)
    (h : i ≠ j) : (l.set i x).getD j d = l.getD j d := by
  rw [List.getD_eq_getElem?_getD, List.getD_eq_getElem?_getD,
    List.getElem?_set_ne h]

theorem getD_set_self {α : Type} (l : List α) (i : ℕ) (x d : α)
    (h : i < l.length) : (l.set i x).getD i d = x := by
  rw [List.getD_eq_getElem?_getD, List.getElem?_set_self h]
  rfl

theorem exists_unique_add_mod (N c a : ℕ) (hN : 0 < N) (ha : a < N) :
    ∃! t, t < N ∧ (c + t) % N = a := by
  have hval : (c + (a + N - c % N) % N) % N = a := by
    rw [Nat.add_mod_mod]
    have hr : c % N < N := Nat.mod_lt c hN
    have hc : N * (c / N) + c % N = c := Nat.div_add_mod c N
    have h2 : c + (a + N - c % N) = N * (c / N) + N + a := by
      generalize N * (c / N) = x at hc
      generalize c % N = r at hr hc ⊢
      omega
    rw [h2]
    have h3 : N * (c / N) + N + a = N * (c / N + 1) + a := by ring
    rw [h3, Nat.mul_add_mod]
    exact Nat.mod_eq_of_lt ha
  refine ⟨(a + N - c % N) % N, ⟨Nat.mod_lt _ hN, hval⟩, ?_⟩
  rintro t ⟨hlt, heq⟩
  have hcongr : (c + t) % N = (c + (a + N - c % N) % N) % N := by
    rw [heq, hval]
  have hmm : t % N = ((a + N - c % N) % N) % N :=
    Nat.ModEq.add_left_cancel' c hcongr
  rwa [Nat.mod_eq_of_lt hlt,
    Nat.mod_eq_of_lt (Nat.mod_lt _ hN)] at hmm

section AvgRunLemmas

variable {S A Θ ρ : Type} [Inhabited Θ] (P : DQNParams) (nA : ℕ)
variable (add : ρ → List (Transition S A) → ρ)
variable (sample : ρ → ℕ → SampledBatch S A)
variable (predict : Θ → S → ℕ → ℚ)
variable (train_step : Θ → List S × List A × List ℚ → Θ)

theorem AveragedDQN.init_n_updates (replay0 : ρ) (train0 : Θ) :
    (AveragedDQN.init P replay0 train0 : AvgDQNState S A Θ ρ).n_updates =
      0 := rfl

theorem AveragedDQN.init_sync_slots (replay0 : ρ) (train0 : Θ) :
    (AveragedDQN.init P replay0 train0 : AvgDQNState S A Θ ρ).sync_slots =
      [] := rfl

theorem AveragedDQN.run_replicate_one_sync_slots
    (replay0 : ρ) (train0 : Θ) (ds : List (Transition S A)) :
    ∀ m : ℕ,
      (AveragedDQN.run P nA add sample predict train_step
          (AveragedDQN.init P replay0 train0)
          (List.replicate m (ds, 1))).sync_slots =
        (List.range (m / P.target_update_frequency)).map
          (fun k => (k + 1) % P.n_approximators) := by
  intro m
  induction m with
  | zero =>
      simp [AveragedDQN.run, AveragedDQN.init_sync_slots, Nat.zero_div]
  | succ m ih =>
      rw [List.replicate_succ', AveragedDQN.avg_run_append]
      simp only [AveragedDQN.run]
      rw [AveragedDQN.avg_fit_one_sync_slots,
        AveragedDQN.run_replicate_one_n_updates,
        AveragedDQN.init_n_updates, Nat.zero_add, ih]
      by_cases hd : P.target_update_frequency ∣ (m + 1)
      · rw [if_pos (Nat.mod_eq_zero_of_dvd hd), Nat.succ_div, if_pos hd,
          List.range_succ, List.map_append]
        simp
      · rw [if_neg (fun h => hd (Nat.dvd_iff_mod_eq_zero.mpr h)),
          Nat.succ_div, if_neg hd, Nat.add_zero]

end AvgRunLemmas

/-! ### Claim C3 -/

/-- C3 (amended): numbering sync events `k = 1, 2, ...` from the first
sync, the ensemble slot overwritten at sync `k` is `k mod N` (the code
computes `idx = n_updates / target_update_frequency mod N` and at the
k-th sync `n_updates = k * target_update_frequency`); in particular the
first sync overwrites slot `1 mod N`, not slot `0` — see the
counterexample. Exactly one slot changes per sync event (never a full
sync), and any `N` consecutive sync events overwrite every one of the `N`
slots exactly once. -/
theorem C3_round_robin_slots (S A Θ ρ : Type) [Inhabited Θ] (P : DQNParams)
    (nA : ℕ)
    (add : ρ → List (Transition S A) → ρ)
    (sample : ρ → ℕ → SampledBatch S A)
    (predict : Θ → S → ℕ → ℚ)
    (train_step : Θ → List S × List A × List ℚ → Θ)
    (hN : 0 < P.n_approximators) :
    (∀ (replay0 : ρ) (train0 : Θ) (ds : List (Transition S A)) (m : ℕ),
      (AveragedDQN.run P nA add sample predict train_step
          (AveragedDQN.init P replay0 train0)
          (List.replicate m (ds, 1))).sync_slots =
        (List.range (m / P.target_update_frequency)).map
          (fun k => (k + 1) % P.n_approximators)) ∧
    (∀ (st : AvgDQNState S A Θ ρ) (d : Θ) (j : ℕ),
      st.n_updates % P.target_update_frequency = 0 →
      (j ≠ st.n_updates / P.target_update_frequency % P.n_approximators →
        (AveragedDQN.update_target P st).target_slots.getD j d =
          st.target_slots.getD j d) ∧
      (st.n_updates / P.target_update_frequency % P.n_approximators <
          st.target_slots.length →
        (AveragedDQN.update_target P st).target_slots.getD
          (st.n_updates / P.target_update_frequency % P.n_approximators) d =
          st.train)) ∧
    (∀ (replay0 : ρ) (train0 : Θ) (ds : List (Transition S A)) (m j a : ℕ),
      a < P.n_approximators →
      j + P.n_approximators ≤ m / P.target_update_frequency →
      ∃! t, t < P.n_approximators ∧
        ((AveragedDQN.run P nA add sample predict train_step
            (AveragedDQN.init P replay0 train0)
            (List.replicate m (ds, 1))).sync_slots).getD (j + t) 0 = a) := by
  refine ⟨fun replay0 train0 ds m =>
    AveragedDQN.run_replicate_one_sync_slots P nA add sample predict
      train_step replay0 train0 ds m, ?_, ?_⟩
  · intro st d j hsync
    constructor
    · intro hj
      rw [AveragedDQN.update_target, if_pos hsync]
      exact getD_set_of_ne _ _ _ _ _ (fun he => hj he.symm)
    · intro hlen
      rw [AveragedDQN.update_target, if_pos hsync]
      exact getD_set_self _ _ _ _ hlen
  · intro replay0 train0 ds m j a ha hwin
    obtain ⟨t0, ⟨ht0N, ht0eq⟩, huniq⟩ :=
      exists_unique_add_mod P.n_approximators (j + 1) a hN ha
    have hform := AveragedDQN.run_replicate_one_sync_slots P nA add sample
      predict train_step replay0 train0 ds m
    refine ⟨t0, ⟨ht0N, ?_⟩, ?_⟩
    · rw [hform, getD_range_map _ _ _ (by omega)]
      rw [show j + t0 + 1 = j + 1 + t0 by omega]
      exact ht0eq
    · rintro t ⟨htN, hteq⟩
      apply huniq
      refine ⟨htN, ?_⟩
      rw [hform, getD_range_map _ _ _ (by omega),
        show j + t + 1 = j + 1 + t by omega] at hteq
      exact hteq

/-- C3 (counterexample): with `target_update_frequency = 1` and `N = 2`
ensemble slots, the first sync event overwrites slot `1`, not slot
`(1 - 1) mod 2 = 0` as the claim predicts. -/
theorem C3_first_sync_slot_not_zero :
    (AveragedDQN.fit
        { Pw with target_update_frequency := 1, n_approximators := 2 } 1
        addW sampleW predictW stepW
        (AveragedDQN.init
          { Pw with target_update_frequency := 1, n_approximators := 2 }
          (0 : ℕ) ()) [] 1).1.sync_slots = [1] ∧
    (1 : ℕ) ≠ (1 - 1) % 2 := by
  constructor
  · rw [AveragedDQN.avg_fit_one_sync_slots, AveragedDQN.init_n_updates,
      AveragedDQN.init_sync_slots]
    norm_num
  · decide

/-- Witness for C3: frequency 1, two slots, three fits: the sync log is
`[1, 0, 1]` (`k mod 2` for `k = 1, 2, 3`), and within the window of the
first two syncs each slot appears exactly once. -/
theorem C3_round_robin_slots_witness :
    (AveragedDQN.run
        { Pw with target_update_frequency := 1, n_approximators := 2 } 1
        addW sampleW predictW stepW
        (AveragedDQN.init
          { Pw with target_update_frequency := 1, n_approximators := 2 }
          (0 : ℕ) ()) (List.replicate 3 ([], 1))).sync_slots =
      (List.range 3).map (fun k => (k + 1) % 2) ∧
    (∃! t, t < 2 ∧
      ((AveragedDQN.run
          { Pw with target_update_frequency := 1, n_approximators := 2 } 1
          addW sampleW predictW stepW
          (AveragedDQN.init
            { Pw with target_update_frequency := 1, n_approximators := 2 }
            (0 : ℕ) ()) (List.replicate 3 ([], 1))).sync_slots).getD
        (0 + t) 0 = 0) := by
  have h := C3_round_robin_slots Unit Unit Unit ℕ
    { Pw with target_update_frequency := 1, n_approximators := 2 } 1
    addW sampleW predictW stepW (by decide)
  exact ⟨h.1 0 () [] 3, h.2.2 0 () [] 3 0 0 (by decide) (by decide)⟩

/-! ### Run-level invariants for `n_fitted_target_models` -/

section NFittedInvariant

variable {S A Θ ρ : Type} [Inhabited Θ] (P : DQNParams) (nA : ℕ)
variable (add : ρ → List (Transition S A) → ρ)
variable (sample : ρ → ℕ → SampledBatch S A)
variable (predict : Θ → S → ℕ → ℚ)
variable (train_step : Θ → List S × List A × List ℚ → Θ)

theorem AveragedDQN.avg_run_n_fitted_mono :
    ∀ (calls : List (List (Transition S A) × ℤ)) (st : AvgDQNState S A Θ ρ),
      st.n_fitted_target_models ≤
        (AveragedDQN.run P nA add sample predict train_step
          st calls).n_fitted_target_models := by
  intro calls
  induction calls with
  | nil => intro st; exact le_refl _
  | cons c cs ih =>
      intro st
      simp only [AveragedDQN.run]
      refine le_trans ?_ (ih _)
      rw [AveragedDQN.avg_fit_n_fitted]
      split <;> omega

theorem AveragedDQN.avg_run_n_fitted_le :
    ∀ (calls : List (List (Transition S A) × ℤ)) (st : AvgDQNState S A Θ ρ),
      st.n_fitted_target_models ≤ P.n_approximators →
      (AveragedDQN.run P nA add sample predict train_step
        st calls).n_fitted_target_models ≤ P.n_approximators := by
  intro calls
  induction calls with
  | nil => intro st h; exact h
  | cons c cs ih =>
      intro st h
      simp only [AveragedDQN.run]
      refine ih _ ?_
      rw [AveragedDQN.avg_fit_n_fitted]
      split <;> omega

theorem AveragedDQN.avg_run_n_fitted_fix :
    ∀ (calls : List (List (Transition S A) × ℤ)) (st : AvgDQNState S A Θ ρ),
      st.n_fitted_target_models = P.n_approximators →
      (AveragedDQN.run P nA add sample predict train_step
        st calls).n_fitted_target_models = P.n_approximators := by
  intro calls
  induction calls with
  | nil => intro st h; exact h
  | cons c cs ih =>
      intro st h
      simp only [AveragedDQN.run]
      refine ih _ ?_
      rw [AveragedDQN.avg_fit_n_fitted]
      split <;> omega

theorem WeightedDQN.weighted_run_n_fitted_mono :
    ∀ (calls : List (List (Transition S A) × ℤ)) (st : AvgDQNState S A Θ ρ),
      st.n_fitted_target_models ≤
        (WeightedDQN.run P nA add sample predict train_step
          st calls).n_fitted_target_models := by
  intro calls
  induction calls with
  | nil => intro st; exact le_refl _
  | cons c cs ih =>
      intro st
      simp only [WeightedDQN.run]
      refine le_trans ?_ (ih _)
      rw [WeightedDQN.weighted_fit_n_fitted]
      split <;> omega

theorem WeightedDQN.weighted_run_n_fitted_le :
    ∀ (calls : List (List (Transition S A) × ℤ)) (st : AvgDQNState S A Θ ρ),
      st.n_fitted_target_models ≤ P.n_approximators →
      (WeightedDQN.run P nA add sample predict train_step
        st calls).n_fitted_target_models ≤ P.n_approximators := by
  intro calls
  induction calls with
  | nil => intro st h; exact h
  | cons c cs ih =>
      intro st h
      simp only [WeightedDQN.run]
      refine ih _ ?_
      rw [WeightedDQN.weighted_fit_n_fitted]
      split <;> omega

theorem WeightedDQN.weighted_run_n_fitted_fix :
    ∀ (calls : List (List (Transition S A) × ℤ)) (st : AvgDQNState S A Θ ρ),
      st.n_fitted_target_models = P.n_approximators →
      (WeightedDQN.run P nA add sample predict train_step
        st calls).n_fitted_target_models = P.n_approximators := by
  intro calls
  induction calls with
  | nil => intro st h; exact h
  | cons c cs ih =>
      intro st h
      simp only [WeightedDQN.run]
      refine ih _ ?_
      rw [WeightedDQN.weighted_fit_n_fitted]
      split <;> omega

theorem AveragedDQN.init_n_fitted (replay0 : ρ) (train0 : Θ) :
    (AveragedDQN.init P replay0 train0 :
      AvgDQNState S A Θ ρ).n_fitted_target_models = 1 := rfl

end NFittedInvariant

/-! ### Claim C7 -/

/-- C7: in `AveragedDQN` (and `WeightedDQN`), `n_fitted_target_models`
equals `1` at construction; a `fit(ds, 1)` call increments it by exactly
`1` when a sync event fires while it is below `N = n_approximators` and
leaves it unchanged otherwise; and along any sequence of `fit` calls from
a fresh agent it stays in `[1, N]`, is monotonically non-decreasing, and
once it reaches `N` it stays at `N` forever. -/
theorem C7_n_fitted_target_models_lifecycle (S A Θ ρ : Type) [Inhabited Θ]
    (P : DQNParams) (nA : ℕ)
    (add : ρ → List (Transition S A) → ρ)
    (sample : ρ → ℕ → SampledBatch S A)
    (predict : Θ → S → ℕ → ℚ)
    (train_step : Θ → List S × List A × List ℚ → Θ)
    (hN : 1 ≤ P.n_approximators) :
    (∀ (replay0 : ρ) (train0 : Θ),
      (AveragedDQN.init P replay0 train0 :
        AvgDQNState S A Θ ρ).n_fitted_target_models = 1) ∧
    (∀ (st : AvgDQNState S A Θ ρ) (ds : List (Transition S A)),
      (AveragedDQN.fit P nA add sample predict train_step st ds
          1).1.n_fitted_target_models =
        if (st.n_updates + 1) % P.target_update_frequency = 0 ∧
            st.n_fitted_target_models < P.n_approximators then
          st.n_fitted_target_models + 1
        else st.n_fitted_target_models) ∧
    (∀ (st : AvgDQNState S A Θ ρ) (ds : List (Transition S A)),
      (WeightedDQN.fit P nA add sample predict train_step st ds
          1).1.n_fitted_target_models =
        if (st.n_updates + 1) % P.target_update_frequency = 0 ∧
            st.n_fitted_target_models < P.n_approximators then
          st.n_fitted_target_models + 1
        else st.n_fitted_target_models) ∧
    (∀ (replay0 : ρ) (train0 : Θ)
       (calls : List (List (Transition S A) × ℤ)),
      1 ≤ (AveragedDQN.run P nA add sample predict train_step
          (AveragedDQN.init P replay0 train0) calls).n_fitted_target_models ∧
      (AveragedDQN.run P nA add sample predict train_step
          (AveragedDQN.init P replay0 train0)
          calls).n_fitted_target_models ≤ P.n_approximators ∧
      1 ≤ (WeightedDQN.run P nA add sample predict train_step
          (AveragedDQN.init P replay0 train0) calls).n_fitted_target_models ∧
      (WeightedDQN.run P nA add sample predict train_step
          (AveragedDQN.init P replay0 train0)
          calls).n_fitted_target_models ≤ P.n_approximators) ∧
    (∀ (replay0 : ρ) (train0 : Θ)
       (calls1 calls2 : List (List (Transition S A) × ℤ)),
      (AveragedDQN.run P nA add sample predict train_step
          (AveragedDQN.init P replay0 train0)
          calls1).n_fitted_target_models ≤
        (AveragedDQN.run P nA add sample predict train_step
          (AveragedDQN.init P replay0 train0)
          (calls1 ++ calls2)).n_fitted_target_models ∧
      ((AveragedDQN.run P nA add sample predict train_step
          (AveragedDQN.init P replay0 train0)
          calls1).n_fitted_target_models = P.n_approximators →
        (AveragedDQN.run P nA add sample predict train_step
          (AveragedDQN.init P replay0 train0)
          (calls1 ++ calls2)).n_fitted_target_models =
          P.n_approximators) ∧
      (WeightedDQN.run P nA add sample predict train_step
          (AveragedDQN.init P replay0 train0)
          calls1).n_fitted_target_models ≤
        (WeightedDQN.run P nA add sample predict train_step
          (AveragedDQN.init P replay0 train0)
          (calls1 ++ calls2)).n_fitted_target_models ∧
      ((WeightedDQN.run P nA add sample predict train_step
          (AveragedDQN.init P replay0 train0)
          calls1).n_fitted_target_models = P.n_approximators →
        (WeightedDQN.run P nA add sample predict train_step
          (AveragedDQN.init P replay0 train0)
          (calls1 ++ calls2)).n_fitted_target_models =
          P.n_approximators)) := by
  refine ⟨fun replay0 train0 =>
      AveragedDQN.init_n_fitted P replay0 train0, ?_, ?_, ?_, ?_⟩
  · intro st ds
    rw [AveragedDQN.avg_fit_n_fitted]
    simp
  · intro st ds
    rw [WeightedDQN.weighted_fit_n_fitted]
    simp
  · intro replay0 train0 calls
    refine ⟨?_, ?_, ?_, ?_⟩
    · have h := AveragedDQN.avg_run_n_fitted_mono P nA add sample predict
        train_step calls (AveragedDQN.init P replay0 train0)
      rwa [AveragedDQN.init_n_fitted] at h
    · exact AveragedDQN.avg_run_n_fitted_le P nA add sample predict train_step
        calls _ (by rw [AveragedDQN.init_n_fitted]; exact hN)
    · have h := WeightedDQN.weighted_run_n_fitted_mono P nA add sample predict
        train_step calls (AveragedDQN.init P replay0 train0)
      rwa [AveragedDQN.init_n_fitted] at h
    · exact WeightedDQN.weighted_run_n_fitted_le P nA add sample predict train_step
        calls _ (by rw [AveragedDQN.init_n_fitted]; exact hN)
  · intro replay0 train0 calls1 calls2
    rw [AveragedDQN.avg_run_append, WeightedDQN.weighted_run_append]
    exact ⟨AveragedDQN.avg_run_n_fitted_mono P nA add sample predict train_step
        calls2 _,
      fun h => AveragedDQN.avg_run_n_fitted_fix P nA add sample predict
        train_step calls2 _ h,
      WeightedDQN.weighted_run_n_fitted_mono P nA add sample predict
        train_step calls2 _,
      fun h => WeightedDQN.weighted_run_n_fitted_fix P nA add sample predict
        train_step calls2 _ h⟩

/-- Witness for C7: `N = 3`, frequency 2; the fresh agent starts at `1`,
nine Averaged fits stay capped at `3`, and a Weighted run is monotone
under appending three more fit calls. -/
theorem C7_n_fitted_target_models_lifecycle_witness :
    (AveragedDQN.init Pw (0 : ℕ) () :
      AvgDQNState Unit Unit Unit ℕ).n_fitted_target_models = 1 ∧
    (AveragedDQN.run Pw 1 addW sampleW predictW stepW
      (AveragedDQN.init Pw (0 : ℕ) ())
      (List.replicate 9 ([], 1))).n_fitted_target_models ≤ 3 ∧
    (WeightedDQN.run Pw 1 addW sampleW predictW stepW
      (AveragedDQN.init Pw (0 : ℕ) ())
      (List.replicate 2 ([], 1))).n_fitted_target_models ≤
      (WeightedDQN.run Pw 1 addW sampleW predictW stepW
        (AveragedDQN.init Pw (0 : ℕ) ())
        (List.replicate 2 ([], 1) ++
          List.replicate 3 ([], 1))).n_fitted_target_models := by
  have h := C7_n_fitted_target_models_lifecycle Unit Unit Unit ℕ Pw 1
    addW sampleW predictW stepW (by decide)
  exact ⟨h.1 0 (), (h.2.2.2.1 0 () (List.replicate 9 ([], 1))).2.1,
    (h.2.2.2.2 0 () (List.replicate 2 ([], 1))
      (List.replicate 3 ([], 1))).2.2.1⟩
